import Mathlib

/-!
Shallow embedding of the minipbrt PBRT-v3 scene parser (src/minipbrt.cpp,
src/minipbrt.h) and proofs about it.

Modelling conventions:
* C `float`/`double` arithmetic is modelled over `ℚ` with the exact decimal
  constants of the source; claims carrying explicit tolerances absorb the
  float rounding this abstracts away.
* C `int` is modelled as `ℤ`; where the source overflows a 32-bit signed
  int (undefined behaviour that wraps on the platforms the library targets)
  the wrap is made explicit with `wrap32`.
* Nullable pointers and the `kInvalidIndex` (all-ones `uint32_t`) sentinel
  are both modelled as `Option`.
* C strings are `String`; a character buffer is a `List Char`, with the end
  of the list standing for the `'\0'` terminator of the fully-buffered file.
-/

namespace Minipbrt

/-! ### Spectrum module (src/minipbrt.cpp 3536-3690) -/

/-- `xyz_to_rgb` (minipbrt.cpp 3536): fixed 3x3 matrix taking a CIE XYZ
triple to linear RGB. -/
def xyz_to_rgb (xyz : ℚ × ℚ × ℚ) : ℚ × ℚ × ℚ :=
  ( (3.240479 : ℚ) * xyz.1 - 1.537150 * xyz.2.1 - 0.498535 * xyz.2.2,
    (-0.969256 : ℚ) * xyz.1 + 1.875991 * xyz.2.1 + 0.041556 * xyz.2.2,
    (0.055648 : ℚ) * xyz.1 - 0.204043 * xyz.2.1 + 1.057311 * xyz.2.2 )

/-- `SpectrumEntry` (minipbrt.cpp 3544): one wavelength/value sample pair. -/
structure SpectrumEntry where
  wavelength : ℚ
  value : ℚ
deriving DecidableEq

/-- `lerp` (minipbrt.cpp 3554). -/
def lerp (t v1 v2 : ℚ) : ℚ := (1 - t) * v1 + t * v2

/-- The index scan `while (x[i] < x0) i++;` inside `average_over_curve`:
first index whose sample is at or after `x0` (the list length if none,
where the C code would read out of bounds). -/
def seekIdx (x : List ℚ) (x0 : ℚ) : ℕ :=
  x.findIdx (fun v => decide (¬ v < x0))

/-- The middle summation loop of `average_over_curve` (minipbrt.cpp 3600):
`while (x[i] < x1) { sum += (y[i] + y[i+1]) * 0.5f * (x[i+1] - x[1]); ++i; }`.
Note the source multiplies by `x[i+1] - x[1]`, not `x[i+1] - x[i]`.
Returns the accumulated sum and the final index; the fuel argument bounds
the loop by the sample count (the source relies on sortedness for
termination). -/
def aocMid (x y : List ℚ) (x1 : ℚ) : ℕ → ℕ → ℚ × ℕ
  | 0, i => (0, i)
  | fuel + 1, i =>
    if x.getD i 0 < x1 then
      let s := (y.getD i 0 + y.getD (i + 1) 0) * (1/2) * (x.getD (i + 1) 0 - x.getD 1 0)
      let r := aocMid x y x1 fuel (i + 1)
      (s + r.1, r.2)
    else (0, i)

/-- `average_over_curve` (minipbrt.cpp 3560): average of the piecewise-linear
curve through the sorted samples `(x, y)` over `[x0, x1]`, with boundary
clamping.  `n` is the sample count. -/
def average_over_curve (x y : List ℚ) (n : ℕ) (x0 x1 : ℚ) : ℚ :=
  if x1 ≤ x.getD 0 0 then y.getD 0 0
  else if x.getD (n - 1) 0 ≤ x0 then y.getD (n - 1) 0
  else if n = 1 then y.getD 0 0
  else
    let xRange := x1 - x0
    -- if (x1 > x[n-1]) { sum += y[n-1] * (x1 - x[n-1]); x1 = x[n-1]; }
    let sumA : ℚ := if x.getD (n - 1) 0 < x1 then y.getD (n - 1) 0 * (x1 - x.getD (n - 1) 0) else 0
    let x1c : ℚ := if x.getD (n - 1) 0 < x1 then x.getD (n - 1) 0 else x1
    -- partial section leading up to the first sample at or after x0
    let i0 : ℕ := if x0 ≤ x.getD 0 0 then 0 else seekIdx x x0
    let sumB : ℚ :=
      if x0 ≤ x.getD 0 0 then y.getD 0 0 * (x.getD 0 0 - x0)
      else
        let t0 := (x0 - x.getD (i0 - 1) 0) / (x.getD i0 0 - x.getD (i0 - 1) 0)
        let y0 := y.getD (i0 - 1) 0 + (y.getD i0 0 - y.getD (i0 - 1) 0) * t0
        (y0 + y.getD i0 0) * (1/2) * (x.getD i0 0 - x0)
    let mid := aocMid x y x1c x.length i0
    let sumC := mid.1
    let iF := mid.2
    -- if (x1 < x[i]) subtract the section past x1
    let sumD : ℚ :=
      if x1c < x.getD iF 0 then
        let t0 := (x1c - x.getD (iF - 1) 0) / (x.getD iF 0 - x.getD (iF - 1) 0)
        let y1 := y.getD (iF - 1) 0 + (y.getD iF 0 - y.getD (iF - 1) 0) * t0
        (-((y.getD iF 0 + y1) * (1/2) * (x.getD iF 0 - x1c)))
      else 0
    (sumA + sumB + sumC + sumD) / xRange

/-- `sampledLambdaStart` (minipbrt.cpp 2424). -/
def sampledLambdaStart : ℚ := 400
/-- `sampledLambdaEnd` (minipbrt.cpp 2425). -/
def sampledLambdaEnd : ℚ := 700
/-- `nSpectralSamples` (minipbrt.cpp 2427). -/
def nSpectralSamples : ℕ := 60
/-- `CIE_Y_integral` (minipbrt.cpp 2830). -/
def CIE_Y_integral : ℚ := 106.856895

/-- Stable insertion sort by wavelength, modelling the
`std::sort(entries, entries + numEntries, sort_by_wavelength)` call with
comparator `lhs.wavelength < rhs.wavelength` (order of equal wavelengths is
unspecified in C++; this choice does not affect any theorem below). -/
def insertEntry (e : SpectrumEntry) : List SpectrumEntry → List SpectrumEntry
  | [] => [e]
  | f :: fs => if e.wavelength < f.wavelength then e :: f :: fs else f :: insertEntry e fs

/-- See `insertEntry`. -/
def sortEntries : List SpectrumEntry → List SpectrumEntry
  | [] => []
  | e :: es => insertEntry e (sortEntries es)

/-- The sortedness scan at the top of `spectrum_to_xyz` (minipbrt.cpp 3643):
`entries[i].wavelength < entries[i-1].wavelength` for no `i`. -/
def entriesSorted : List SpectrumEntry → Bool
  | [] => true
  | [_] => true
  | a :: b :: rest => !(b.wavelength < a.wavelength) && entriesSorted (b :: rest)

/-- One iteration of the integration loop of `spectrum_to_xyz`
(minipbrt.cpp 3666-3674).  Note the source accumulates all three products
`X[i]*val`, `Y[i]*val` and `Z[i]*val` into `xyz[0]`. -/
def spectrumAccum (X Y Z : ℕ → ℚ) (wl vals : List ℚ) (n : ℕ)
    (acc : ℚ × ℚ × ℚ) (i : ℕ) : ℚ × ℚ × ℚ :=
  let wl0 := lerp ((i : ℚ) / (nSpectralSamples : ℚ)) sampledLambdaStart sampledLambdaEnd
  let wl1 := lerp (((i : ℚ) + 1) / (nSpectralSamples : ℚ)) sampledLambdaStart sampledLambdaEnd
  let val := average_over_curve wl vals n wl0 wl1
  (acc.1 + X i * val + Y i * val + Z i * val, acc.2.1, acc.2.2)

/-- `spectrum_to_xyz` (minipbrt.cpp 3638): sort the sample pairs by
wavelength if needed, then integrate against the colour-matching tables
`X`, `Y`, `Z` (the module globals filled in by `spectrum_init`, here taken
as parameters) over the 60 bands, and scale. -/
def spectrum_to_xyz (X Y Z : ℕ → ℚ) (entries : List SpectrumEntry) : ℚ × ℚ × ℚ :=
  let sorted := if entriesSorted entries then entries else sortEntries entries
  let wl := sorted.map SpectrumEntry.wavelength
  let vals := sorted.map SpectrumEntry.value
  let xyz := (List.range nSpectralSamples).foldl (spectrumAccum X Y Z wl vals entries.length) (0, 0, 0)
  let scale := (sampledLambdaEnd - sampledLambdaStart) / (CIE_Y_integral * (nSpectralSamples : ℚ))
  (xyz.1 * scale, xyz.2.1 * scale, xyz.2.2 * scale)

/-- `spectrum_to_rgb` (minipbrt.cpp 3682). -/
def spectrum_to_rgb (X Y Z : ℕ → ℚ) (entries : List SpectrumEntry) : ℚ × ℚ × ℚ :=
  xyz_to_rgb (spectrum_to_xyz X Y Z entries)

/-! ### `Parser::spectrum_param` (minipbrt.cpp 7949) -/

/-- The four members of `kSpectrumTypes` that `Parser::spectrum_param`
dispatches on (`ParamType` in minipbrt.h). -/
inductive SpectrumParamType where
  | RGB
  | XYZ
  | Blackbody
  | Samples
deriving DecidableEq

/-- The `reinterpret_cast<SpectrumEntry*>` view of a float array as
wavelength/value pairs. -/
def toEntries : List ℚ → List SpectrumEntry
  | w :: v :: rest => ⟨w, v⟩ :: toEntries rest
  | _ => []

/-- `Parser::spectrum_param` (minipbrt.cpp 7949), applied to the parameter
found by `find_param`: its type tag and raw float values.  Returns `none`
where the source returns `false` without writing `dest`.  The tables
`X Y Z` and the float-transcendental `blackbody_to_rgb` are parameters. -/
def spectrum_param (X Y Z : ℕ → ℚ) (blackbody_to_rgb : ℚ → ℚ → ℚ × ℚ × ℚ)
    (ty : SpectrumParamType) (vals : List ℚ) : Option (ℚ × ℚ × ℚ) :=
  match ty with
  | .RGB =>
    if vals.length = 3 then some (vals.getD 0 0, vals.getD 1 0, vals.getD 2 0) else none
  | .XYZ =>
    if vals.length = 3 then some (xyz_to_rgb (vals.getD 0 0, vals.getD 1 0, vals.getD 2 0)) else none
  | .Blackbody =>
    if vals.length = 2 then some (blackbody_to_rgb (vals.getD 0 0) (vals.getD 1 0)) else none
  | .Samples =>
    if vals.length = 0 ∨ vals.length % 2 ≠ 0 then none
    else some (spectrum_to_rgb X Y Z (toEntries vals))

/-! ### Character classes and the integer-literal recognizer
(minipbrt.cpp 397-425, 3344-3393, 4985-4991) -/

/-- `is_whitespace` (minipbrt.cpp 3192). -/
def is_whitespace (c : Char) : Bool := c = ' ' || c = '\t' || c = '\r'

/-- `is_digit` (minipbrt.cpp 3198). -/
def is_digit (c : Char) : Bool := '0' ≤ c && c ≤ '9'

/-- `is_letter` (minipbrt.cpp 3204): sets bit 5 then tests `a..z`. -/
def is_letter (c : Char) : Bool :=
  let l := Char.ofNat (c.toNat ||| 32)
  'a' ≤ l && l ≤ 'z'

/-- Two's-complement wrap of a 32-bit signed int, making explicit what the
source's `int` arithmetic does on overflow. -/
def wrap32 (z : ℤ) : ℤ := (z + 2 ^ 31) % 2 ^ 32 - 2 ^ 31

/-- `int_literal` (minipbrt.cpp 3344) over the remaining character buffer
(end of list = the `'\0'` terminator).  Returns the recognized value and
the rest of the buffer, or `none` where the source returns `false` without
writing `*val` or `*end`.  The accumulation `localVal = localVal * 10 + d`
and the final negation wrap at 32 bits exactly where the source's `int`
does. -/
def int_literal (start : List Char) : Option (ℤ × List Char) :=
  let (negative, p1) : Bool × List Char :=
    match start with
    | '-' :: rest => (true, rest)
    | '+' :: rest => (false, rest)
    | _ => (false, start)
  let hasLeadingZeroes := p1.headD '\x00' = '0'
  let p2 := if hasLeadingZeroes then p1.dropWhile (fun c => c = '0') else p1
  let digits := p2.takeWhile is_digit
  let p3 := p2.dropWhile is_digit
  let localVal : ℤ := digits.foldl (fun acc c => wrap32 (acc * 10 + ((c.toNat : ℤ) - ('0'.toNat : ℤ)))) 0
  let numDigits := if digits.length = 0 ∧ hasLeadingZeroes then 1 else digits.length
  if numDigits = 0 ∨ is_letter (p3.headD '\x00') ∨ p3.headD '\x00' = '_' then none
  else if numDigits > 10 then none
  else some ((if negative then wrap32 (-localVal) else localVal), p3)

/-! ### Tokenizer error record and `advance` (minipbrt.cpp 4708, 5151) -/

/-- `Error` (minipbrt.h 1509): filename, char offset, message, and the
line/column computed by `cursor_location`. -/
structure ErrorRec where
  filename : String
  offset : ℕ
  message : String
  line : ℕ
  column : ℕ
deriving DecidableEq

/-- Tokenizer state for a fully-buffered single file: the characters
already consumed before the cursor, the remaining buffer, and the error
slot.  (The include stack, buffer refilling and file I/O of the C++
`Tokenizer` do not come into play for a single file that fits in the
buffer.) -/
structure Tok where
  filename : String
  consumed : List Char
  buf : List Char
  error : Option ErrorRec
deriving DecidableEq

/-- `cursor_location` (line part): 1 plus the newlines before the cursor. -/
def cursorLine (consumed : List Char) : ℕ :=
  1 + consumed.countP (fun c => c = '\n')

/-- `cursor_location` (column part): 1 plus the characters since the last
newline. -/
def cursorColumn (consumed : List Char) : ℕ :=
  1 + (consumed.reverse.takeWhile (fun c => c ≠ '\n')).length

/-- `Tokenizer::set_error` (minipbrt.cpp 5151): if an error has already
been recorded, return immediately; otherwise record the message together
with the filename, the cursor's file offset and its line/column. -/
def set_error (t : Tok) (msg : String) : Tok :=
  if t.error.isSome then t
  else
    { t with
      error := some
        { filename := t.filename
          offset := t.consumed.length
          message := msg
          line := cursorLine t.consumed
          column := cursorColumn t.consumed } }

/-- The skipping loop of `Tokenizer::advance` (minipbrt.cpp 4708): skip
whitespace and newlines; on `#` skip the rest of the line (the `skipLine`
flag).  Returns the characters consumed and the rest of the buffer. -/
def advanceLoop : Bool → List Char → List Char × List Char
  | _, [] => ([], [])
  | true, c :: cs =>
    if c = '\n' then
      let r := advanceLoop false cs
      (c :: r.1, r.2)
    else
      let r := advanceLoop true cs
      (c :: r.1, r.2)
  | false, c :: cs =>
    if is_whitespace c || c = '\n' then
      let r := advanceLoop false cs
      (c :: r.1, r.2)
    else if c = '#' then
      let r := advanceLoop true cs
      (c :: r.1, r.2)
    else ([], c :: cs)

/-- `Tokenizer::advance` (minipbrt.cpp 4708): skip whitespace and comments
and report whether a token remains (`*m_pos != '\0'`).  Note the source
never consults the error slot here. -/
def advance (t : Tok) : Tok × Bool :=
  let r := advanceLoop false t.buf
  ({ t with consumed := t.consumed ++ r.1, buf := r.2 }, !r.2.isEmpty)

/-! ### Transform stack (minipbrt.cpp 2415, 3930-3958) -/

/-- A 4x4 float matrix. -/
def Mat4 : Type := Fin 4 → Fin 4 → ℚ

instance : DecidableEq Mat4 := fun f g =>
  Fintype.decidablePiFintype f g

/-- `Mat4::identity`. -/
def idMat4 : Mat4 := fun i j => if i = j then 1 else 0

/-- One transform-stack slot: the pair of start-time/end-time matrices
(`matrices[i][0]`, `matrices[i][1]`). -/
structure TEntry where
  start : Mat4
  stop : Mat4
deriving DecidableEq

/-- `kMaxTransformStackEntry` (minipbrt.cpp 2415). -/
def kMaxTransformStackEntry : ℕ := 127
/-- `kMaxAttributeStackEntry` (minipbrt.cpp 2416). -/
def kMaxAttributeStackEntry : ℕ := 127

/-- `TransformStack`: the slot array and the current entry index. -/
structure TransformStack where
  matrices : List TEntry
  entry : ℕ
deriving DecidableEq

/-- The current top slot, `matrices[entry]`. -/
def TransformStack.top (ts : TransformStack) : TEntry :=
  ts.matrices.getD ts.entry ⟨idMat4, idMat4⟩

/-- `TransformStack::push` (minipbrt.cpp 3946): fails when
`entry == kMaxTransformStackEntry`, otherwise copies the top slot up. -/
def TransformStack.push (ts : TransformStack) : Option TransformStack :=
  if ts.entry = kMaxTransformStackEntry then none
  else some { matrices := ts.matrices.set (ts.entry + 1) ts.top, entry := ts.entry + 1 }

/-- `TransformStack::pop` (minipbrt.cpp 3958): fails when `entry == 0`. -/
def TransformStack.pop (ts : TransformStack) : Option TransformStack :=
  if ts.entry = 0 then none
  else some { ts with entry := ts.entry - 1 }

/-- `TransformStack::clear` (minipbrt.cpp 3966): back to the base entry,
reset to the identity. -/
def TransformStack.clear (ts : TransformStack) : TransformStack :=
  { matrices := ts.matrices.set 0 ⟨idMat4, idMat4⟩, entry := 0 }

/-- The freshly constructed `TransformStack`: identity at the base (the
uninitialized higher slots are modelled as identity; only slots at or
below `entry` are ever observable). -/
def initTransformStack : TransformStack :=
  { matrices := List.replicate (kMaxTransformStackEntry + 1) ⟨idMat4, idMat4⟩, entry := 0 }

/-! ### Attribute stack (minipbrt.cpp 2905-2931, 4080-4142) -/

/-- `Attributes` (minipbrt.cpp 2905): one attribute frame.  `kInvalidIndex`
fields are `Option ℕ`; the three scoped name lists hold indices into the
scene's textures/materials vectors in insertion (`push_back`) order. -/
structure Frame where
  activeMaterial : Option ℕ := none
  areaLight : Option ℕ := none
  insideMedium : Option ℕ := none
  outsideMedium : Option ℕ := none
  reverseOrientation : Bool := false
  floatTextures : List ℕ := []
  spectrumTextures : List ℕ := []
  materials : List ℕ := []
deriving DecidableEq

/-- `AttributeStack`: the slot array and the current entry index. -/
structure AttributeStack where
  attrs : List Frame
  entry : ℕ
deriving DecidableEq

/-- The current top frame, `attrs[entry]`. -/
def AttributeStack.top (as : AttributeStack) : Frame :=
  as.attrs.getD as.entry {}

/-- `AttributeStack::push` (minipbrt.cpp 4102): fails when
`entry == kMaxAttributeStackEntry`; otherwise copies the five scalar
fields of the top frame into the next slot (whose lists are empty: they
start empty and `pop` clears them). -/
def AttributeStack.push (as : AttributeStack) : Option AttributeStack :=
  if as.entry = kMaxAttributeStackEntry then none
  else
    let t := as.top
    let copied : Frame :=
      { (as.attrs.getD (as.entry + 1) {}) with
        activeMaterial := t.activeMaterial
        areaLight := t.areaLight
        insideMedium := t.insideMedium
        outsideMedium := t.outsideMedium
        reverseOrientation := t.reverseOrientation }
    some { attrs := as.attrs.set (as.entry + 1) copied, entry := as.entry + 1 }

/-- `AttributeStack::pop` (minipbrt.cpp 4122): fails when `entry == 0`;
otherwise clears the popped frame's three lists and steps down. -/
def AttributeStack.pop (as : AttributeStack) : Option AttributeStack :=
  if as.entry = 0 then none
  else
    let t := as.top
    let cleared : Frame := { t with floatTextures := [], spectrumTextures := [], materials := [] }
    some { attrs := as.attrs.set as.entry cleared, entry := as.entry - 1 }

/-- `AttributeStack::clear` (minipbrt.cpp 4138): just `entry = 0`. -/
def AttributeStack.clear (as : AttributeStack) : AttributeStack :=
  { as with entry := 0 }

/-- The freshly constructed `AttributeStack`: default frames everywhere. -/
def initAttributeStack : AttributeStack :=
  { attrs := List.replicate (kMaxAttributeStackEntry + 1) {}, entry := 0 }

/-! ### Scene entities (minipbrt.h) and name resolution (minipbrt.cpp 8097-8184) -/

/-- A material as far as name resolution sees it: its nullable `name`. -/
structure Material where
  name : Option String
deriving DecidableEq

/-- A texture as far as name resolution sees it: its nullable `name`. -/
structure Texture where
  name : Option String
deriving DecidableEq

/-- `TextureData` (minipbrt.h). -/
inductive TextureData where
  | Float
  | Spectrum
deriving DecidableEq

/-- Does `scene->materials[idx]` exist, have a name and match `name`
(the inner test of `Parser::find_material`)? -/
def matNameMatches (mats : List Material) (name : String) (idx : ℕ) : Bool :=
  match mats.get? idx with
  | some m => match m.name with
    | some nm => nm = name
    | none => false
  | none => false

/-- Like `matNameMatches`, for textures. -/
def texNameMatches (texs : List Texture) (name : String) (idx : ℕ) : Bool :=
  match texs.get? idx with
  | some t => match t.name with
    | some nm => nm = name
    | none => false
  | none => false

/-- `Parser::find_material` (minipbrt.cpp 8137): walk the attribute stack
from the current top frame (`entry`) down to the base, and within each
frame scan `materials` with a range-for, i.e. in insertion order; return
the first match.  `frames` lists the stack frames top first. -/
def find_material (mats : List Material) (frames : List Frame) (name : String) : Option ℕ :=
  if name = "" then none
  else frames.findSome? (fun fr => fr.materials.find? (matNameMatches mats name))

/-- `Parser::find_texture` (minipbrt.cpp 8154): same walk over
`floatTextures` or `spectrumTextures` according to `dataType`. -/
def find_texture (texs : List Texture) (frames : List Frame) (name : String)
    (dataType : TextureData) : Option ℕ :=
  if name = "" then none
  else
    match dataType with
    | .Float => frames.findSome? (fun fr => fr.floatTextures.find? (texNameMatches texs name))
    | .Spectrum => frames.findSome? (fun fr => fr.spectrumTextures.find? (texNameMatches texs name))

/-- `Object` (minipbrt.h 1428). -/
structure ObjectM where
  name : String
  objectToInstance : TEntry
  firstShape : Option ℕ := none
  numShapes : ℕ := 0
deriving DecidableEq

/-- `Instance` (minipbrt.h 1440). -/
structure InstanceM where
  instanceToWorld : TEntry
  object : ℕ
  areaLight : Option ℕ := none
  insideMedium : Option ℕ := none
  outsideMedium : Option ℕ := none
  reverseOrientation : Bool := false
deriving DecidableEq

/-- `Shape` (minipbrt.h): the common fields `Parser::parse_Shape` fills in
(the per-variant geometry parameters are not needed by any claim). -/
structure ShapeM where
  shapeToWorld : TEntry
  material : Option ℕ := none
  areaLight : Option ℕ := none
  insideMedium : Option ℕ := none
  outsideMedium : Option ℕ := none
  object : Option ℕ := none
  reverseOrientation : Bool := false
deriving DecidableEq

instance : Inhabited ShapeM := ⟨{ shapeToWorld := ⟨idMat4, idMat4⟩ }⟩

/-- `Parser::find_object` (minipbrt.cpp 8097): empty name or empty vector
gives `kInvalidIndex`; otherwise scan the objects vector in reverse so the
newest definition of a redefined name wins. -/
def find_object (objs : List ObjectM) (name : String) : Option ℕ :=
  if name = "" ∨ objs = [] then none
  else (List.range objs.length).reverse.find?
    (fun i => match objs.get? i with
      | some o => o.name = name
      | none => false)

/-! ### Single-instance scene slots (minipbrt.h), with the fields the
claims mention; further per-variant parameters are not modelled. -/

/-- `CameraType` variants; `PerspectiveCamera` etc. (minipbrt.h 289). -/
inductive Camera where
  | perspective
  | orthographic
  | environment
  | realistic
deriving DecidableEq

/-- `ImageFilm` (minipbrt.h 353): resolution defaults 640x480, `filename`
null until assigned. -/
inductive Film where
  | image (xresolution : ℤ) (yresolution : ℤ) (filename : Option String)
deriving DecidableEq

/-- Sampler variants; `HaltonSampler` (minipbrt.h 939) with
`pixelsamples = 16`. -/
inductive Sampler where
  | zeroTwoSequence (pixelsamples : ℤ)
  | halton (pixelsamples : ℤ)
  | maxMinDist (pixelsamples : ℤ)
  | random (pixelsamples : ℤ)
  | sobol (pixelsamples : ℤ)
  | stratified
deriving DecidableEq

/-- Filter variants; `BoxFilter` (minipbrt.h 391) constructs with
`xwidth = ywidth = 0.5`. -/
inductive Filter where
  | box (xwidth ywidth : ℚ)
  | gaussian (xwidth ywidth : ℚ)
  | mitchell (xwidth ywidth : ℚ)
  | sinc (xwidth ywidth : ℚ)
  | triangle (xwidth ywidth : ℚ)
deriving DecidableEq

/-- Integrator variants; `PathIntegrator` (minipbrt.h 503) with
`maxdepth = 5`. -/
inductive Integrator where
  | bdpt (maxdepth : ℤ)
  | directLighting (maxdepth : ℤ)
  | mlt (maxdepth : ℤ)
  | path (maxdepth : ℤ)
  | sppm (maxdepth : ℤ)
  | whitted (maxdepth : ℤ)
  | volpath (maxdepth : ℤ)
  | ao
deriving DecidableEq

/-- `BVHSplit` (minipbrt.h). -/
inductive BVHSplit where
  | sah
  | middle
  | equal
  | hlbvh
deriving DecidableEq

/-- Accelerator variants; `BVHAccelerator` (minipbrt.h 218) with
`maxnodeprims = 4`, `splitmethod = SAH`. -/
inductive Accelerator where
  | bvh (maxnodeprims : ℤ) (splitmethod : BVHSplit)
  | kdtree
deriving DecidableEq

/-- A light entity; no light-producing directive is part of the modelled
fragment, so only list membership matters. -/
def LightM : Type := Unit

instance : DecidableEq LightM := fun _ _ => .isTrue rfl

/-- `Scene` (minipbrt.h 1454): the slots and vectors the claims touch. -/
structure SceneM where
  camera : Option Camera := none
  film : Option Film := none
  filter : Option Filter := none
  integrator : Option Integrator := none
  sampler : Option Sampler := none
  accelerator : Option Accelerator := none
  shapes : List ShapeM := []
  objects : List ObjectM := []
  instances : List InstanceM := []
  lights : List LightM := []
  materials : List Material := []
deriving DecidableEq

/-! ### The directive-level parser state machine (minipbrt.cpp 5242-5375
and the per-directive handlers).  The tokenization of directive names and
parameter blocks is below the granularity of the claims; a parse that has
recognized its directives is a `List Directive`. -/

/-- The directives whose handlers the claims are about, with their
positional string arguments. -/
inductive Directive where
  | WorldBegin
  | WorldEnd
  | AttributeBegin
  | AttributeEnd
  | TransformBegin
  | TransformEnd
  | ObjectBegin (name : String)
  | ObjectEnd
  | ObjectInstance (name : String)
  | Shape
deriving DecidableEq

/-- The `inPreamble` / `inWorld` columns of `kStatements`
(minipbrt.cpp 2282-2324) for the modelled directives. -/
def Directive.inPreamble : Directive → Bool
  | .WorldBegin => true
  | _ => false

/-- See `Directive.inPreamble`. -/
def Directive.inWorld : Directive → Bool
  | .WorldBegin => false
  | _ => true

/-- `Parser` state (minipbrt.cpp 3070-3160): the world flag, the two
stacks, the active object and pending first-shape index, the scene under
construction, and the tokenizer's latched error (here just its message;
the full record is `ErrorRec` above). -/
structure PState where
  inWorld : Bool := false
  transforms : TransformStack := initTransformStack
  attrs : AttributeStack := initAttributeStack
  activeObject : Option ℕ := none
  firstShape : Option ℕ := none
  scene : SceneM := {}
  error : Option String := none
deriving DecidableEq

/-- `Tokenizer::set_error` as seen at the directive level: latched. -/
def PState.setError (s : PState) (msg : String) : PState :=
  if s.error.isSome then s else { s with error := some msg }

/-- The state `Parser::parse` starts from. -/
def initPState : PState := {}

/-- `Parser::parse_WorldBegin` (minipbrt.cpp 7352): set the world flag,
clear both stacks, and fill in defaults for every scene-wide slot that is
still unset.  (The "camera" named coordinate system and the
`compute_defaults` calls touch only fields outside the model.) -/
def stepWorldBegin (s : PState) : PState × Bool :=
  let sc := s.scene
  let sc := if sc.camera = none then { sc with camera := some .perspective } else sc
  let sc := if sc.sampler = none then { sc with sampler := some (.halton 16) } else sc
  let sc := if sc.film = none then { sc with film := some (.image 640 480 (some "pbrt.exr")) } else sc
  let sc := if sc.filter = none then { sc with filter := some (.box 0.5 0.5) } else sc
  let sc := if sc.integrator = none then { sc with integrator := some (.path 5) } else sc
  let sc := if sc.accelerator = none then { sc with accelerator := some (.bvh 4 .sah) } else sc
  ({ s with
      inWorld := true
      transforms := s.transforms.clear
      attrs := s.attrs.clear
      scene := sc }, true)

/-- `Parser::parse_AttributeBegin` (minipbrt.cpp 5674): push the transform
stack, then the attribute stack; either failure is a latched error. -/
def stepAttributeBegin (s : PState) : PState × Bool :=
  match s.transforms.push with
  | none => (s.setError "Exceeded maximum transform stack size", false)
  | some ts =>
    match s.attrs.push with
    | none => ({ s with transforms := ts }.setError "Exceeded maximum attribute stack size", false)
    | some as => ({ s with transforms := ts, attrs := as }, true)

/-- `Parser::parse_AttributeEnd` (minipbrt.cpp 5688): pop the attribute
stack, then the transform stack. -/
def stepAttributeEnd (s : PState) : PState × Bool :=
  match s.attrs.pop with
  | none => (s.setError "Cannot pop last attribute set off the stack", false)
  | some as =>
    match s.transforms.pop with
    | none => ({ s with attrs := as }.setError "Cannot pop last transform set off the stack", false)
    | some ts => ({ s with attrs := as, transforms := ts }, true)

/-- `Parser::parse_TransformBegin` (minipbrt.cpp 6946).  (The source's
error message for this case really does say "attribute".) -/
def stepTransformBegin (s : PState) : PState × Bool :=
  match s.transforms.push with
  | none => (s.setError "Exceeded maximum attribute stack size", false)
  | some ts => ({ s with transforms := ts }, true)

/-- `Parser::parse_TransformEnd` (minipbrt.cpp 6956). -/
def stepTransformEnd (s : PState) : PState × Bool :=
  match s.transforms.pop with
  | none => (s.setError "Cannot pop last transform set off the stack", false)
  | some ts => ({ s with transforms := ts }, true)

/-- `Parser::parse_ObjectBegin` (minipbrt.cpp 6680): reject nesting, push
both stacks, reset the pending first-shape index, and append a new object
capturing the current transform. -/
def stepObjectBegin (s : PState) (name : String) : PState × Bool :=
  if s.activeObject ≠ none then
    (s.setError "Previous ObjectBegin has not been closed yet", false)
  else
    match s.transforms.push with
    | none => (s.setError "Exceeded maximum transform stack size", false)
    | some ts =>
      match s.attrs.push with
      | none => ({ s with transforms := ts }.setError "Exceeded maximum attribute stack size", false)
      | some as =>
        let obj : ObjectM := { name := name, objectToInstance := ts.top }
        ({ s with
            transforms := ts
            attrs := as
            firstShape := none
            activeObject := some s.scene.objects.length
            scene := { s.scene with objects := s.scene.objects ++ [obj] } }, true)

/-- `Parser::parse_ObjectEnd` (minipbrt.cpp 6708): reject it outside an
object, pop both stacks, then fix up the active object's shape range. -/
def stepObjectEnd (s : PState) : PState × Bool :=
  match s.activeObject with
  | none => (s.setError "ObjectEnd without an ObjectBegin", false)
  | some k =>
    match s.attrs.pop with
    | none => (s.setError "Cannot pop last attribute set off the stack", false)
    | some as =>
      match s.transforms.pop with
      | none => ({ s with attrs := as }.setError "Cannot pop last transform set off the stack", false)
      | some ts =>
        let objs := s.scene.objects
        let objs :=
          match objs.get? k with
          | some o =>
            objs.set k
              { o with
                firstShape := s.firstShape
                numShapes :=
                  match s.firstShape with
                  | none => 0
                  | some f => s.scene.shapes.length - f }
          | none => objs
        ({ s with
            attrs := as
            transforms := ts
            activeObject := none
            scene := { s.scene with objects := objs } }, true)

/-- `Parser::parse_ObjectInstance` (minipbrt.cpp 6734): reject nested
instances; an unresolved name is a silent no-op; otherwise append an
`Instance` capturing the current transform and the top attribute frame's
scalars. -/
def stepObjectInstance (s : PState) (name : String) : PState × Bool :=
  if s.activeObject ≠ none then
    (s.setError "Nested instances are not allowed", false)
  else
    match find_object s.scene.objects name with
    | none => (s, true)
    | some k =>
      let fr := s.attrs.top
      let inst : InstanceM :=
        { instanceToWorld := s.transforms.top
          object := k
          areaLight := fr.areaLight
          insideMedium := fr.insideMedium
          outsideMedium := fr.outsideMedium
          reverseOrientation := fr.reverseOrientation }
      ({ s with scene := { s.scene with instances := s.scene.instances ++ [inst] } }, true)

/-- `Parser::parse_Shape` (minipbrt.cpp 5701-5993), at the granularity of
the common postlude: build the shape from the current transform, the top
attribute frame and the active object, record the first shape index of an
open object, and append.  (Per-variant geometry parameters and material
overrides involve the parameter buffer, which carries no parameters here.) -/
def stepShape (s : PState) : PState × Bool :=
  let fr := s.attrs.top
  let sh : ShapeM :=
    { shapeToWorld := s.transforms.top
      material := fr.activeMaterial
      areaLight := fr.areaLight
      insideMedium := fr.insideMedium
      outsideMedium := fr.outsideMedium
      object := s.activeObject
      reverseOrientation := fr.reverseOrientation }
  let firstShape :=
    if s.activeObject ≠ none ∧ s.firstShape = none then some s.scene.shapes.length
    else s.firstShape
  ({ s with
      firstShape := firstShape
      scene := { s.scene with shapes := s.scene.shapes ++ [sh] } }, true)

/-- The handler switch of `Parser::parse_statement` (minipbrt.cpp 5322). -/
def dispatch (d : Directive) (s : PState) : PState × Bool :=
  match d with
  | .WorldBegin => stepWorldBegin s
  | .WorldEnd => ({ s with inWorld := false }, true)
  | .AttributeBegin => stepAttributeBegin s
  | .AttributeEnd => stepAttributeEnd s
  | .TransformBegin => stepTransformBegin s
  | .TransformEnd => stepTransformEnd s
  | .ObjectBegin name => stepObjectBegin s name
  | .ObjectEnd => stepObjectEnd s
  | .ObjectInstance name => stepObjectInstance s name
  | .Shape => stepShape s

/-- `Parser::parse_statement` (minipbrt.cpp 5291) for the modelled
directives: check the preamble/world gate, then run the handler. -/
def step (d : Directive) (s : PState) : PState × Bool :=
  let allowed := if s.inWorld then d.inWorld else d.inPreamble
  if !allowed then (s.setError "statement is not allowed in this section", false)
  else dispatch d s

/-- The loop of `Parser::parse` (minipbrt.cpp 5253):
`while (ok && m_tokenizer.advance()) ok = parse_statement();`.  Stops at
the first failing directive. -/
def runParser : List Directive → PState → PState × Bool
  | [], s => (s, true)
  | d :: ds, s =>
    let r := step d s
    if r.2 then runParser ds r.1 else (r.1, false)

/-! ### `triangulate_polygon` (minipbrt.cpp 2101) -/

/-- The ear-clipping loop of `triangulate_polygon` (minipbrt.cpp 2157-2185)
followed by the final triangle and the `return n - 2`.  `nextf`/`prevf` are
the circular linked-list arrays, `first` the entry vertex and the last
argument the loop counter `n`.  `pick` abstracts the float `atan2`-based
search for the remaining vertex with the sharpest angle (lines 2159-2168);
every theorem below holds for every `pick`.  Returns the triangle indices
written to `dst` and the function's return value. -/
def earClip (pick : (ℕ → ℕ) → (ℕ → ℕ) → ℕ → ℕ) (indices : List ℤ) :
    (ℕ → ℕ) → (ℕ → ℕ) → ℕ → ℕ → List ℤ × ℕ
  | nextf, prevf, first, m + 4 =>
    let bestI := pick nextf prevf first
    let nextI := nextf bestI
    let prevI := prevf bestI
    let tri := [indices.getD bestI 0, indices.getD nextI 0, indices.getD prevI 0]
    let first' := if bestI = first then nextI else first
    let nextf' := fun j => if j = prevI then nextI else nextf j
    let prevf' := fun j => if j = nextI then prevI else prevf j
    let r := earClip pick indices nextf' prevf' first' (m + 3)
    (tri ++ r.1, r.2)
  | nextf, prevf, first, m =>
    ([indices.getD first 0, indices.getD (nextf first) 0, indices.getD (prevf first) 0], m - 2)

/-- `triangulate_polygon` (minipbrt.cpp 2101): special cases for `n < 3`,
`n == 3` and `n == 4`; for larger `n` an index-range check and then ear
clipping starting from the circular lists `next[j] = j+1 mod n`,
`prev[i] = i-1 mod n`, `first = 0`. -/
def triangulate_polygon (pick : (ℕ → ℕ) → (ℕ → ℕ) → ℕ → ℕ)
    (n : ℕ) (numVerts : ℕ) (indices : List ℤ) : List ℤ × ℕ :=
  if n < 3 then ([], 0)
  else if n = 3 then
    ([indices.getD 0 0, indices.getD 1 0, indices.getD 2 0], 1)
  else if n = 4 then
    ([indices.getD 0 0, indices.getD 1 0, indices.getD 3 0,
      indices.getD 2 0, indices.getD 3 0, indices.getD 1 0], 2)
  else if !((List.range n).all fun i =>
      decide (0 ≤ indices.getD i 0) && decide (indices.getD i 0 < (numVerts : ℤ))) then
    ([], 0)
  else
    earClip pick indices (fun i => (i + 1) % n) (fun i => (i + n - 1) % n) 0 n

/-! ### A spec-side definition for the name-resolution claim -/

/-- The specification's description of `Parser::find_material`: the same
walk of the attribute stack from the top frame toward the base, but with
each frame's `materials` list scanned in REVERSE insertion order, so that
the most recently defined of two same-named materials in one scope wins.
This is what the spec asserts; `find_material` above is what the code
does. -/
def find_material_spec_rev (mats : List Material) (frames : List Frame) (name : String) : Option ℕ :=
  if name = "" then none
  else frames.findSome? (fun fr => fr.materials.reverse.find? (matNameMatches mats name))

/-! ### The object/shape range invariant -/

/-- The property claimed for every `Object` of a parsed `Scene`: the
half-open shape range `[firstShape, firstShape + numShapes)` lies within
the shapes vector, and every shape in it points back at this object.  An
object whose `firstShape` is still the `kInvalidIndex` sentinel has
`numShapes = 0` (the empty range). -/
def objRangeOK (sc : SceneM) (i : ℕ) : Prop :=
  match sc.objects.get? i with
  | none => True
  | some o =>
    match o.firstShape with
    | none => o.numShapes = 0
    | some f =>
      f + o.numShapes ≤ sc.shapes.length ∧
      ∀ j < f + o.numShapes, f ≤ j → (sc.shapes.getD j default).object = some i

/-- The open-object part of the parse invariant: while an object is open
(`m_activeObject` set) it is the last stored object, its stored range is
still the empty default, and every shape appended since `m_firstShape` was
recorded points at it. -/
def activeObjInv (s : PState) : Prop :=
  match s.activeObject with
  | none => True
  | some k =>
    k < s.scene.objects.length ∧
    (∀ o, s.scene.objects.get? k = some o → o.firstShape = none ∧ o.numShapes = 0) ∧
    (match s.firstShape with
     | none => True
     | some f =>
       f ≤ s.scene.shapes.length ∧
       ∀ j < s.scene.shapes.length, f ≤ j → (s.scene.shapes.getD j default).object = some k)

/-- The parse-time strengthening of `objRangeOK`: it holds of every stored
object, together with `activeObjInv`. -/
def ParseInv (s : PState) : Prop :=
  (∀ i, objRangeOK s.scene i) ∧ activeObjInv s

/-- A test state for the object-instancing theorems: in the world section,
no open object, one stored object named "a". -/
def stateWithObjectA : PState :=
  { initPState with
    inWorld := true
    scene := { objects := [{ name := "a", objectToInstance := ⟨idMat4, idMat4⟩ }] } }

/-- A test state whose transform stack is at the maximum entry. -/
def stateAtTransformLimit : PState :=
  { initPState with
    inWorld := true
    transforms := { matrices := initTransformStack.matrices, entry := kMaxTransformStackEntry } }

/-- A test state whose attribute stack is at the maximum entry. -/
def stateAtAttributeLimit : PState :=
  { initPState with
    inWorld := true
    attrs := { attrs := initAttributeStack.attrs, entry := kMaxAttributeStackEntry } }

/-- A test state in the world section with an open object. -/
def stateWithOpenObject : PState :=
  { stateWithObjectA with activeObject := some 0 }

/-! ## Theorems -/

/-- Helper: the integration loop of `spectrum_to_xyz` never touches the
second and third accumulator components. -/
theorem foldl_spectrumAccum_snd (X Y Z : ℕ → ℚ) (wl vals : List ℚ) (n : ℕ)
    (l : List ℕ) (acc : ℚ × ℚ × ℚ) :
    (l.foldl (spectrumAccum X Y Z wl vals n) acc).2 = acc.2 := by
  induction l generalizing acc with
  | nil => rfl
  | cons i is ih => rw [List.foldl_cons, ih]; rfl

/-- C1: the claim says the X, Y and Z integrals of a sampled spectrum
accumulate into the three separate components of the XYZ triple.  The code
(minipbrt.cpp 3669-3671) adds `X[i]*val`, `Y[i]*val` and `Z[i]*val` all
into `xyz[0]`: for every colour-matching table and every sample list the
produced triple has second and third component zero. -/
theorem spectrum_to_xyz_collapses_into_first_component
    (X Y Z : ℕ → ℚ) (entries : List SpectrumEntry) :
    (spectrum_to_xyz X Y Z entries).2.1 = 0 ∧ (spectrum_to_xyz X Y Z entries).2.2 = 0 := by
  have h := foldl_spectrumAccum_snd X Y Z
    ((if entriesSorted entries then entries else sortEntries entries).map SpectrumEntry.wavelength)
    ((if entriesSorted entries then entries else sortEntries entries).map SpectrumEntry.value)
    entries.length (List.range nSpectralSamples) (0, 0, 0)
  unfold spectrum_to_xyz
  constructor <;>
  · simp only []
    rw [foldl_spectrumAccum_snd]
    norm_num

/-- C4: a spectrum parameter given as a CIE XYZ triple is stored as exactly
the fixed 3x3 matrix product of the claim, and at `(0.5, 0.5, 0.5)` the
result is within `1e-5` per component of `(0.602397, 0.474146, 0.454458)`. -/
theorem spectrum_param_xyz_matrix
    (X Y Z : ℕ → ℚ) (bb : ℚ → ℚ → ℚ × ℚ × ℚ) (x y z : ℚ) :
    spectrum_param X Y Z bb .XYZ [x, y, z] =
      some ((3.240479 : ℚ) * x - 1.537150 * y - 0.498535 * z,
            (-0.969256 : ℚ) * x + 1.875991 * y + 0.041556 * z,
            (0.055648 : ℚ) * x - 0.204043 * y + 1.057311 * z) ∧
    (spectrum_param (fun _ => 0) (fun _ => 0) (fun _ => 0) (fun _ _ => (0, 0, 0))
        .XYZ [1/2, 1/2, 1/2] = some (0.602397, 0.4741455, 0.454458) ∧
     ((0.602397 : ℚ) - 0.602397 ≤ 1e-5 ∧ (0.602397 : ℚ) - 0.602397 ≥ -(1e-5)) ∧
     ((0.4741455 : ℚ) - 0.474146 ≤ 1e-5 ∧ (0.4741455 : ℚ) - 0.474146 ≥ -(1e-5)) ∧
     ((0.454458 : ℚ) - 0.454458 ≤ 1e-5 ∧ (0.454458 : ℚ) - 0.454458 ≥ -(1e-5))) := by
  refine ⟨rfl, by norm_num [spectrum_param, xyz_to_rgb], ?_, ?_, ?_⟩ <;> constructor <;> norm_num

/-- C9: the integer literal `4294967296` does not fit in a signed 32-bit
int, yet `int_literal` (its digit count being exactly 10) accepts it and
stores the wrapped value 0 — the overflow the source's own FIXME comments
(minipbrt.cpp 3367, 3381) admit is not caught. -/
theorem int_literal_accepts_overflowing_literal :
    ((2 ^ 31 - 1 : ℤ) < 4294967296) ∧
    int_literal ("4294967296".toList) = some (0, []) := by
  refine ⟨by decide, by decide⟩

/-- Helper: an ear-clipping run entered with loop counter `m + 3` writes
exactly `3 * (m + 1)` triangle indices (`m` clips plus the final triangle)
and, because the counter has been decremented to 3, ends with
`return n - 2 = 1`. -/
theorem earClip_length_and_return (pick : (ℕ → ℕ) → (ℕ → ℕ) → ℕ → ℕ) (indices : List ℤ) :
    ∀ (m : ℕ) (nextf prevf : ℕ → ℕ) (first : ℕ),
      (earClip pick indices nextf prevf first (m + 3)).1.length = 3 * (m + 1) ∧
      (earClip pick indices nextf prevf first (m + 3)).2 = 1 := by
  intro m
  induction m with
  | zero => intro nextf prevf first; exact ⟨rfl, rfl⟩
  | succ k ih =>
    intro nextf prevf first
    have hk := ih (fun j => if j = prevf (pick nextf prevf first) then nextf (pick nextf prevf first) else nextf j)
      (fun j => if j = nextf (pick nextf prevf first) then prevf (pick nextf prevf first) else prevf j)
      (if pick nextf prevf first = first then nextf (pick nextf prevf first) else first)
    show ((earClip pick indices nextf prevf first (k + 4)).1.length = _) ∧ _
    rw [show k + 4 = (k + 1) + 3 from rfl] at *
    constructor
    · simp only [earClip, List.length_append, List.length_cons, List.length_nil]
      rw [hk.1]; ring
    · simp only [earClip]
      exact hk.2

/-- C3: the claim says `triangulate_polygon` on a valid `n`-gon (`n ≥ 3`)
produces `n - 2` triangles and returns `n - 2`.  For every `n ≥ 5` the
function does write `n - 2` triangles (`3 * (n - 2)` indices) into `dst`,
but it returns the loop counter it decremented to 3, minus 2 — that is, 1
(minipbrt.cpp 2190: `return n - 2;` after the `while (n > 3) { ... --n; }`
loop).  `pick` abstracts the sharpest-angle search; the counts hold for
every `pick`. -/
theorem triangulate_polygon_writes_but_miscounts
    (pick : (ℕ → ℕ) → (ℕ → ℕ) → ℕ → ℕ) (n numVerts : ℕ) (indices : List ℤ)
    (h5 : 5 ≤ n)
    (hvalid : ∀ i < n, 0 ≤ indices.getD i 0 ∧ indices.getD i 0 < (numVerts : ℤ)) :
    (triangulate_polygon pick n numVerts indices).1.length = 3 * (n - 2) ∧
    (triangulate_polygon pick n numVerts indices).2 = 1 := by
  have hcheck : ((List.range n).all fun i =>
      decide (0 ≤ indices.getD i 0) && decide (indices.getD i 0 < (numVerts : ℤ))) = true := by
    rw [List.all_eq_true]
    intro i hi
    rw [List.mem_range] at hi
    have := hvalid i hi
    simp only [Bool.and_eq_true, decide_eq_true_eq]
    exact this
  unfold triangulate_polygon
  rw [if_neg (by omega), if_neg (by omega), if_neg (by omega), if_neg (by rw [hcheck]; decide)]
  obtain ⟨m, rfl⟩ : ∃ m, n = (m + 2) + 3 := ⟨n - 5, by omega⟩
  have h := earClip_length_and_return pick indices (m + 2)
    (fun i => (i + 1) % (m + 2 + 3)) (fun i => (i + (m + 2 + 3) - 1) % (m + 2 + 3)) 0
  refine ⟨?_, h.2⟩
  rw [h.1]; omega

/-- Witness for `triangulate_polygon_writes_but_miscounts`: a convex
pentagon with vertex indices 0..4 — 9 triangle indices are written but the
returned triangle count is 1. -/
theorem triangulate_polygon_writes_but_miscounts_witness :
    (5 ≤ 5 ∧ ∀ i < 5, 0 ≤ ([0, 1, 2, 3, 4] : List ℤ).getD i 0 ∧
        ([0, 1, 2, 3, 4] : List ℤ).getD i 0 < ((5 : ℕ) : ℤ)) ∧
    (triangulate_polygon (fun _ _ first => first) 5 5 [0, 1, 2, 3, 4]).1.length = 3 * (5 - 2) ∧
    (triangulate_polygon (fun _ _ first => first) 5 5 [0, 1, 2, 3, 4]).2 = 1 :=
  ⟨⟨by omega, by decide⟩,
   triangulate_polygon_writes_but_miscounts (fun _ _ first => first) 5 5 [0, 1, 2, 3, 4]
     (by omega) (by decide)⟩

/-- Helper: `find?` over an append tries the left list first. -/
theorem find?_append_or {α : Type} (p : α → Bool) (l₁ l₂ : List α) :
    (l₁ ++ l₂).find? p =
      (match l₁.find? p with
       | some x => some x
       | none => l₂.find? p) := by
  induction l₁ with
  | nil => rfl
  | cons a l ih =>
    by_cases h : p a
    · simp [List.find?_cons, h]
    · simp only [List.cons_append, List.find?_cons] at *
      simp only [h]
      exact ih

/-- Helper: scanning a list of frames with `findSome?` of an inner `find?`
is the `find?` over the concatenation of the frames' lists. -/
theorem findSome?_find?_join {α β : Type} (p : α → Bool) (f : β → List α) (l : List β) :
    l.findSome? (fun b => (f b).find? p) = (l.map f).flatten.find? p := by
  induction l with
  | nil => rfl
  | cons b bs ih =>
    rw [List.findSome?_cons, List.map_cons, List.flatten_cons, find?_append_or]
    cases h : (f b).find? p with
    | none => exact ih
    | some x => rfl

/-- C2 counterexample: two materials both named "m" defined in the same
attribute scope, in this order.  The claim says a lookup resolves to the
most recently defined one (index 1, what the reverse-insertion-order scan
of the spec would return); `Parser::find_material` scans the frame's list
with a forward range-for and returns index 0. -/
theorem find_material_same_scope_counterexample :
    find_material [⟨some "m"⟩, ⟨some "m"⟩] [{ materials := [0, 1] }] "m" = some 0 ∧
    find_material_spec_rev [⟨some "m"⟩, ⟨some "m"⟩] [{ materials := [0, 1] }] "m" = some 1 ∧
    (some 0 : Option ℕ) ≠ some 1 := by
  refine ⟨by decide, by decide, by decide⟩

/-- C2 (amended): name resolution walks the attribute stack from the top
frame toward the base and scans each frame's appropriate list in FORWARD
insertion order, returning the first match — equivalently, the first match
in the concatenation of the frames' lists, top frame first.  Two
same-named entities in one scope therefore resolve to the
earliest-defined one, while shadowing across scopes (inner frame before
outer) still holds. -/
theorem find_material_find_texture_forward_order
    (mats : List Material) (texs : List Texture) (frames : List Frame)
    (name : String) (dt : TextureData) :
    (find_material mats frames name =
      if name = "" then none
      else (frames.map Frame.materials).flatten.find? (matNameMatches mats name)) ∧
    (find_texture texs frames name dt =
      if name = "" then none
      else
        match dt with
        | .Float => (frames.map Frame.floatTextures).flatten.find? (texNameMatches texs name)
        | .Spectrum => (frames.map Frame.spectrumTextures).flatten.find? (texNameMatches texs name)) := by
  constructor
  · unfold find_material
    by_cases h : name = "" <;> simp [h, findSome?_find?_join]
  · unfold find_texture
    by_cases h : name = "" <;> cases dt <;> simp [h, findSome?_find?_join]

/-- C8 counterexample: a tokenizer that has latched an error but still has
input in its buffer.  The claim says `advance()` returns failure once an
error has been set; `Tokenizer::advance` never consults the error slot and
reports that a token remains. -/
theorem advance_ignores_latched_error :
    (Tok.mk "scene.pbrt" [] ("Shape".toList) (some ⟨"scene.pbrt", 0, "first error", 1, 1⟩)).error ≠
      none ∧
    (advance (Tok.mk "scene.pbrt" [] ("Shape".toList)
      (some ⟨"scene.pbrt", 0, "first error", 1, 1⟩))).2 = true := by
  refine ⟨by decide, by decide⟩

/-- C8 (amended): the first error is latched — once `m_error` is set,
`set_error` returns without touching the stored record — and the parse
loop stops at the first failing directive, executing nothing further; but
`Tokenizer::advance` itself does not consult the error state (it can
return `true` afterwards, and it never writes a diagnostic). -/
theorem first_error_latched :
    (∀ (t : Tok) (msg : String), t.error ≠ none → set_error t msg = t) ∧
    (∀ t : Tok, (advance t).1.error = t.error) ∧
    (∀ (d : Directive) (ds : List Directive) (s : PState),
      (step d s).2 = false → runParser (d :: ds) s = ((step d s).1, false)) := by
  refine ⟨?_, ?_, ?_⟩
  · intro t msg h
    unfold set_error
    rw [if_pos (Option.isSome_iff_ne_none.mpr h)]
  · intro t
    rfl
  · intro d ds s h
    unfold runParser
    simp only [h]
    rfl

/-- Witness for `first_error_latched`: a second `set_error` on a tokenizer
with a latched error changes nothing, `advance` preserves the error slot,
and a `WorldEnd` in the preamble stops the parse at once. -/
theorem first_error_latched_witness :
    ((Tok.mk "scene.pbrt" [] [] (some ⟨"scene.pbrt", 0, "first error", 1, 1⟩)).error ≠ none ∧
     set_error (Tok.mk "scene.pbrt" [] [] (some ⟨"scene.pbrt", 0, "first error", 1, 1⟩)) "second" =
       Tok.mk "scene.pbrt" [] [] (some ⟨"scene.pbrt", 0, "first error", 1, 1⟩)) ∧
    (advance (Tok.mk "scene.pbrt" [] [] (some ⟨"scene.pbrt", 0, "first error", 1, 1⟩))).1.error =
      some ⟨"scene.pbrt", 0, "first error", 1, 1⟩ ∧
    ((step .WorldEnd initPState).2 = false ∧
     runParser [.WorldEnd] initPState = ((step .WorldEnd initPState).1, false)) :=
  ⟨⟨by decide,
    first_error_latched.1 (Tok.mk "scene.pbrt" [] [] (some ⟨"scene.pbrt", 0, "first error", 1, 1⟩))
      "second" (by decide)⟩,
   first_error_latched.2.1 (Tok.mk "scene.pbrt" [] [] (some ⟨"scene.pbrt", 0, "first error", 1, 1⟩)),
   by decide,
   first_error_latched.2.2 .WorldEnd [] initPState (by decide)⟩

/-- C5: parsing exactly `WorldBegin WorldEnd` succeeds and yields the
default perspective camera, 640x480 "pbrt.exr" image film, Halton sampler,
0.5x0.5 box filter, path integrator with maxdepth 5, BVH accelerator with
maxnodeprims 4 and SAH split, and empty shapes/lights/materials vectors. -/
theorem empty_world_default_scene :
    (runParser [.WorldBegin, .WorldEnd] initPState).2 = true ∧
    (runParser [.WorldBegin, .WorldEnd] initPState).1.scene.camera = some .perspective ∧
    (runParser [.WorldBegin, .WorldEnd] initPState).1.scene.film =
      some (.image 640 480 (some "pbrt.exr")) ∧
    (runParser [.WorldBegin, .WorldEnd] initPState).1.scene.sampler = some (.halton 16) ∧
    (runParser [.WorldBegin, .WorldEnd] initPState).1.scene.filter = some (.box 0.5 0.5) ∧
    (runParser [.WorldBegin, .WorldEnd] initPState).1.scene.integrator = some (.path 5) ∧
    (runParser [.WorldBegin, .WorldEnd] initPState).1.scene.accelerator =
      some (.bvh 4 .sah) ∧
    (runParser [.WorldBegin, .WorldEnd] initPState).1.scene.shapes = [] ∧
    (runParser [.WorldBegin, .WorldEnd] initPState).1.scene.lights = [] ∧
    (runParser [.WorldBegin, .WorldEnd] initPState).1.scene.materials = [] := by
  exact ⟨rfl, rfl, rfl, rfl, rfl, rfl, rfl, rfl, rfl, rfl⟩

/-- C10: an `ObjectInstance` directive (outside any open object, in the
world section) whose name resolves to no stored object is a complete
no-op — no error, no instance, the state unchanged; a name that resolves
to object `k` appends exactly one instance capturing the current top
transform pair and the top attribute frame's area light, mediums and
reverse-orientation flag. -/
theorem object_instance_resolution (s : PState) (name : String)
    (hw : s.inWorld = true) (hao : s.activeObject = none) :
    (find_object s.scene.objects name = none →
      step (.ObjectInstance name) s = (s, true)) ∧
    (∀ k, find_object s.scene.objects name = some k →
      step (.ObjectInstance name) s =
        ({ s with scene := { s.scene with instances := s.scene.instances ++
            [{ instanceToWorld := s.transforms.top
               object := k
               areaLight := s.attrs.top.areaLight
               insideMedium := s.attrs.top.insideMedium
               outsideMedium := s.attrs.top.outsideMedium
               reverseOrientation := s.attrs.top.reverseOrientation }] } }, true)) := by
  constructor
  · intro hnone
    simp [step, dispatch, Directive.inWorld, hw, stepObjectInstance, hao, hnone]
  · intro k hk
    simp [step, dispatch, Directive.inWorld, hw, stepObjectInstance, hao, hk]

/-- Witness for `object_instance_resolution`: a state holding one object
named "a"; instancing "missing" is a no-op and instancing "a" appends the
instance for object 0. -/
theorem object_instance_resolution_witness :
    (stateWithObjectA.inWorld = true ∧ stateWithObjectA.activeObject = none) ∧
    (find_object stateWithObjectA.scene.objects "missing" = none →
      step (.ObjectInstance "missing") stateWithObjectA = (stateWithObjectA, true)) :=
  ⟨⟨rfl, rfl⟩, (object_instance_resolution stateWithObjectA "missing" rfl rfl).1⟩

/-- Helper: recording an error on an error-free parser state stores it. -/
theorem setError_of_none (s : PState) (msg : String) (h : s.error = none) :
    (s.setError msg).error = some msg := by
  unfold PState.setError
  rw [h]
  rfl

/-- C7: each stack admits exactly 127 pushes above the base entry — `push`
fails precisely at `entry == 127` and `pop` precisely at the base — and at
the directive level an `AttributeBegin`, `TransformBegin` or `ObjectBegin`
that would exceed the depth, or an `AttributeEnd`, `TransformEnd` or
`ObjectEnd` that would pop the base, fails and latches a parse error. -/
theorem stack_depth_limits :
    (∀ ts : TransformStack, ts.push = none ↔ ts.entry = kMaxTransformStackEntry) ∧
    (∀ ts : TransformStack, ts.pop = none ↔ ts.entry = 0) ∧
    (∀ as : AttributeStack, as.push = none ↔ as.entry = kMaxAttributeStackEntry) ∧
    (∀ as : AttributeStack, as.pop = none ↔ as.entry = 0) ∧
    (∀ s : PState, s.error = none → s.inWorld = true →
      s.transforms.entry = kMaxTransformStackEntry ∨ s.attrs.entry = kMaxAttributeStackEntry →
      (step .AttributeBegin s).2 = false ∧ (step .AttributeBegin s).1.error ≠ none) ∧
    (∀ s : PState, s.error = none → s.inWorld = true →
      s.transforms.entry = kMaxTransformStackEntry →
      (step .TransformBegin s).2 = false ∧ (step .TransformBegin s).1.error ≠ none) ∧
    (∀ (s : PState) (name : String), s.error = none → s.inWorld = true →
      s.activeObject = none →
      s.transforms.entry = kMaxTransformStackEntry ∨ s.attrs.entry = kMaxAttributeStackEntry →
      (step (.ObjectBegin name) s).2 = false ∧ (step (.ObjectBegin name) s).1.error ≠ none) ∧
    (∀ s : PState, s.error = none → s.inWorld = true →
      s.attrs.entry = 0 ∨ s.transforms.entry = 0 →
      (step .AttributeEnd s).2 = false ∧ (step .AttributeEnd s).1.error ≠ none) ∧
    (∀ s : PState, s.error = none → s.inWorld = true →
      s.transforms.entry = 0 →
      (step .TransformEnd s).2 = false ∧ (step .TransformEnd s).1.error ≠ none) ∧
    (∀ (s : PState) (k : ℕ), s.error = none → s.inWorld = true →
      s.activeObject = some k →
      s.attrs.entry = 0 ∨ s.transforms.entry = 0 →
      (step .ObjectEnd s).2 = false ∧ (step .ObjectEnd s).1.error ≠ none) := by
  refine ⟨?_, ?_, ?_, ?_, ?_, ?_, ?_, ?_, ?_, ?_⟩
  · intro ts
    unfold TransformStack.push
    split <;> simp_all
  · intro ts
    unfold TransformStack.pop
    split <;> simp_all
  · intro as
    unfold AttributeStack.push
    split <;> simp_all
  · intro as
    unfold AttributeStack.pop
    split <;> simp_all
  · intro s h hw hor
    by_cases ht : s.transforms.entry = kMaxTransformStackEntry
    · simp [step, dispatch, Directive.inWorld, hw, stepAttributeBegin, TransformStack.push, ht,
        PState.setError, h]
    · rcases hor with ht' | ha
      · exact absurd ht' ht
      · simp [step, dispatch, Directive.inWorld, hw, stepAttributeBegin, TransformStack.push, ht,
          AttributeStack.push, ha, PState.setError, h]
  · intro s h hw ht
    simp [step, dispatch, Directive.inWorld, hw, stepTransformBegin, TransformStack.push, ht,
      PState.setError, h]
  · intro s name h hw hao hor
    by_cases ht : s.transforms.entry = kMaxTransformStackEntry
    · simp [step, dispatch, Directive.inWorld, hw, stepObjectBegin, hao, TransformStack.push, ht,
        PState.setError, h]
    · rcases hor with ht' | ha
      · exact absurd ht' ht
      · simp [step, dispatch, Directive.inWorld, hw, stepObjectBegin, hao, TransformStack.push, ht,
          AttributeStack.push, ha, PState.setError, h]
  · intro s h hw hor
    by_cases ha : s.attrs.entry = 0
    · simp [step, dispatch, Directive.inWorld, hw, stepAttributeEnd, AttributeStack.pop, ha,
        PState.setError, h]
    · rcases hor with ha' | ht
      · exact absurd ha' ha
      · simp [step, dispatch, Directive.inWorld, hw, stepAttributeEnd, AttributeStack.pop, ha,
          TransformStack.pop, ht, PState.setError, h]
  · intro s h hw ht
    simp [step, dispatch, Directive.inWorld, hw, stepTransformEnd, TransformStack.pop, ht,
      PState.setError, h]
  · intro s k h hw hao hor
    by_cases ha : s.attrs.entry = 0
    · simp [step, dispatch, Directive.inWorld, hw, stepObjectEnd, hao, AttributeStack.pop, ha,
        PState.setError, h]
    · rcases hor with ha' | ht
      · exact absurd ha' ha
      · simp [step, dispatch, Directive.inWorld, hw, stepObjectEnd, hao, AttributeStack.pop, ha,
          TransformStack.pop, ht, PState.setError, h]

/-- Witness for `stack_depth_limits`: concrete states at the depth limit
and at the base for each directive. -/
theorem stack_depth_limits_witness :
    (initTransformStack.push = none ↔ initTransformStack.entry = kMaxTransformStackEntry) ∧
    (initAttributeStack.push = none ↔ initAttributeStack.entry = kMaxAttributeStackEntry) ∧
    ((step .AttributeBegin stateAtTransformLimit).2 = false ∧
     (step .AttributeBegin stateAtTransformLimit).1.error ≠ none) ∧
    ((step .TransformBegin stateAtTransformLimit).2 = false ∧
     (step .TransformBegin stateAtTransformLimit).1.error ≠ none) ∧
    ((step (.ObjectBegin "o") stateAtTransformLimit).2 = false ∧
     (step (.ObjectBegin "o") stateAtTransformLimit).1.error ≠ none) ∧
    ((step .AttributeEnd stateWithObjectA).2 = false ∧
     (step .AttributeEnd stateWithObjectA).1.error ≠ none) ∧
    ((step .TransformEnd stateWithObjectA).2 = false ∧
     (step .TransformEnd stateWithObjectA).1.error ≠ none) ∧
    ((step .ObjectEnd stateWithOpenObject).2 = false ∧
     (step .ObjectEnd stateWithOpenObject).1.error ≠ none) :=
  ⟨stack_depth_limits.1 initTransformStack,
   stack_depth_limits.2.2.1 initAttributeStack,
   stack_depth_limits.2.2.2.2.1 stateAtTransformLimit rfl rfl (Or.inl rfl),
   stack_depth_limits.2.2.2.2.2.1 stateAtTransformLimit rfl rfl rfl,
   stack_depth_limits.2.2.2.2.2.2.1 stateAtTransformLimit "o" rfl rfl rfl (Or.inl rfl),
   stack_depth_limits.2.2.2.2.2.2.2.1 stateWithObjectA rfl rfl (Or.inl rfl),
   stack_depth_limits.2.2.2.2.2.2.2.2.1 stateWithObjectA rfl rfl rfl,
   stack_depth_limits.2.2.2.2.2.2.2.2.2 stateWithOpenObject 0 rfl rfl rfl (Or.inl rfl)⟩

/-- The four parser-state components the object/shape range invariant
reads.  A step that preserves them all preserves the invariant. -/
def TrackedEq (s s' : PState) : Prop :=
  s'.scene.objects = s.scene.objects ∧ s'.scene.shapes = s.scene.shapes ∧
  s'.activeObject = s.activeObject ∧ s'.firstShape = s.firstShape

/-- Helper: `objRangeOK` only reads the objects and shapes vectors. -/
theorem objRangeOK_of_eq {sc sc' : SceneM} (ho : sc'.objects = sc.objects)
    (hs : sc'.shapes = sc.shapes) (i : ℕ) (h : objRangeOK sc i) : objRangeOK sc' i := by
  unfold objRangeOK at h ⊢
  rw [ho, hs]
  exact h

/-- Helper: `ParseInv` only reads the tracked components. -/
theorem ParseInv_of_tracked {s s' : PState} (ht : TrackedEq s s') (h : ParseInv s) :
    ParseInv s' := by
  obtain ⟨ho, hs, ha, hf⟩ := ht
  obtain ⟨h1, h2⟩ := h
  refine ⟨fun i => objRangeOK_of_eq ho hs i (h1 i), ?_⟩
  unfold activeObjInv at h2 ⊢
  rw [ha, hf, ho, hs]
  exact h2

/-- Helper: `set_error` does not touch the tracked components. -/
theorem tracked_setError (s : PState) (msg : String) : TrackedEq s (s.setError msg) := by
  unfold PState.setError
  split <;> exact ⟨rfl, rfl, rfl, rfl⟩

/-- Helper: `parse_WorldBegin` touches only the world flag, the stacks and
the single-instance scene slots. -/
theorem tracked_stepWorldBegin (s : PState) : TrackedEq s (stepWorldBegin s).1 := by
  unfold stepWorldBegin
  dsimp only
  refine ⟨?_, ?_, rfl, rfl⟩ <;>
    simp only [apply_ite SceneM.objects, apply_ite SceneM.shapes, ite_self]

/-- Helper: `parse_AttributeBegin` touches only the stacks and the error. -/
theorem tracked_stepAttributeBegin (s : PState) : TrackedEq s (stepAttributeBegin s).1 := by
  unfold stepAttributeBegin
  cases s.transforms.push with
  | none => exact tracked_setError s _
  | some ts =>
    cases s.attrs.push with
    | none => exact tracked_setError { s with transforms := ts } _
    | some as => exact ⟨rfl, rfl, rfl, rfl⟩

/-- Helper: `parse_AttributeEnd` touches only the stacks and the error. -/
theorem tracked_stepAttributeEnd (s : PState) : TrackedEq s (stepAttributeEnd s).1 := by
  unfold stepAttributeEnd
  cases s.attrs.pop with
  | none => exact tracked_setError s _
  | some as =>
    cases s.transforms.pop with
    | none => exact tracked_setError { s with attrs := as } _
    | some ts => exact ⟨rfl, rfl, rfl, rfl⟩

/-- Helper: `parse_TransformBegin` touches only the transform stack. -/
theorem tracked_stepTransformBegin (s : PState) : TrackedEq s (stepTransformBegin s).1 := by
  unfold stepTransformBegin
  cases s.transforms.push with
  | none => exact tracked_setError s _
  | some ts => exact ⟨rfl, rfl, rfl, rfl⟩

/-- Helper: `parse_TransformEnd` touches only the transform stack. -/
theorem tracked_stepTransformEnd (s : PState) : TrackedEq s (stepTransformEnd s).1 := by
  unfold stepTransformEnd
  cases s.transforms.pop with
  | none => exact tracked_setError s _
  | some ts => exact ⟨rfl, rfl, rfl, rfl⟩

/-- Helper: `parse_ObjectInstance` appends at most an instance. -/
theorem tracked_stepObjectInstance (s : PState) (name : String) :
    TrackedEq s (stepObjectInstance s name).1 := by
  unfold stepObjectInstance
  split
  · exact tracked_setError s _
  · cases find_object s.scene.objects name with
    | none => exact ⟨rfl, rfl, rfl, rfl⟩
    | some k => exact ⟨rfl, rfl, rfl, rfl⟩

/-- Helper: a successful `parse_Shape` preserves the invariant: the new
shape carries the active object (if any) and extends its pending range. -/
theorem ParseInv_stepShape (s : PState) (hinv : ParseInv s) : ParseInv (stepShape s).1 := by
  obtain ⟨h1, h2⟩ := hinv
  unfold stepShape
  dsimp only
  constructor
  · intro i
    have hi := h1 i
    unfold objRangeOK at hi ⊢
    dsimp only
    cases hg : s.scene.objects.get? i with
    | none => simp only [hg]
    | some o =>
      simp only [hg] at hi ⊢
      cases hf : o.firstShape with
      | none => simp only [hf] at hi ⊢; exact hi
      | some f =>
        simp only [hf] at hi ⊢
        obtain ⟨hb, hj⟩ := hi
        refine ⟨le_trans hb (by simp), ?_⟩
        intro j hjlt hfle
        rw [List.getD_append _ _ _ _ (lt_of_lt_of_le hjlt hb)]
        exact hj j hjlt hfle
  · unfold activeObjInv at h2 ⊢
    dsimp only
    cases hao : s.activeObject with
    | none => simp only [hao]
    | some k =>
      simp only [hao] at h2 ⊢
      obtain ⟨hk, hdef, h3⟩ := h2
      refine ⟨hk, hdef, ?_⟩
      cases hfs : s.firstShape with
      | none =>
        rw [if_pos ⟨by simp, rfl⟩]
        refine ⟨by simp, ?_⟩
        intro j hjlt hjge
        have hj : j = s.scene.shapes.length := by
          simp only [List.length_append, List.length_cons, List.length_nil] at hjlt
          omega
        subst hj
        rw [List.getD_append_right _ _ _ _ (le_refl _)]
        simp [hao]
      | some f =>
        rw [if_neg (fun hc => Option.some_ne_none f hc.2)]
        rw [hfs] at h3
        obtain ⟨hfle, hold⟩ := h3
        refine ⟨le_trans hfle (by simp), ?_⟩
        intro j hjlt hjge
        simp only [List.length_append, List.length_cons, List.length_nil] at hjlt
        by_cases hjl : j < s.scene.shapes.length
        · rw [List.getD_append _ _ _ _ hjl]
          exact hold j hjl hjge
        · have hj : j = s.scene.shapes.length := by omega
          subst hj
          rw [List.getD_append_right _ _ _ _ (le_refl _)]
          simp [hao]

/-- Helper: a successful `parse_ObjectBegin` preserves the invariant: the
new object starts with the empty default range. -/
theorem ParseInv_stepObjectBegin (s : PState) (name : String)
    (hb : (stepObjectBegin s name).2 = true) (hinv : ParseInv s) :
    ParseInv (stepObjectBegin s name).1 := by
  obtain ⟨h1, _⟩ := hinv
  by_cases hao : s.activeObject = none
  · unfold stepObjectBegin at hb ⊢
    rw [if_neg (not_not_intro hao)] at hb ⊢
    cases hts : s.transforms.push with
    | none => simp only [hts] at hb; exact absurd hb (by simp)
    | some ts =>
      simp only [hts] at hb ⊢
      cases has : s.attrs.push with
      | none => simp only [has] at hb; exact absurd hb (by simp)
      | some as =>
        simp only [has] at hb ⊢
        constructor
        · intro i
          unfold objRangeOK
          dsimp only
          by_cases hil : i < s.scene.objects.length
          · rw [List.get?_append hil]
            have hi := h1 i
            unfold objRangeOK at hi
            exact hi
          · by_cases hie : i = s.scene.objects.length
            · subst hie
              rw [List.get?_concat_length]
            · rw [List.get?_len_le (by simp only [List.length_append,
                List.length_cons, List.length_nil]; omega)]
              trivial
        · unfold activeObjInv
          dsimp only
          refine ⟨by simp, ?_, trivial⟩
          intro o hgo
          rw [List.get?_concat_length] at hgo
          cases hgo
          exact ⟨rfl, rfl⟩
  · unfold stepObjectBegin at hb
    rw [if_pos hao] at hb
    simp at hb

/-- Helper: a successful `parse_ObjectEnd` preserves the invariant: the
finalized range is exactly the shapes appended while the object was open. -/
theorem ParseInv_stepObjectEnd (s : PState)
    (hb : (stepObjectEnd s).2 = true) (hinv : ParseInv s) :
    ParseInv (stepObjectEnd s).1 := by
  obtain ⟨h1, h2⟩ := hinv
  unfold stepObjectEnd at hb ⊢
  cases hao : s.activeObject with
  | none => simp only [hao] at hb; simp at hb
  | some k =>
    simp only [hao] at hb ⊢
    cases has : s.attrs.pop with
    | none => simp only [has] at hb; simp at hb
    | some as =>
      simp only [has] at hb ⊢
      cases hts : s.transforms.pop with
      | none => simp only [hts] at hb; simp at hb
      | some ts =>
        simp only [hts] at hb ⊢
        unfold activeObjInv at h2
        rw [hao] at h2
        obtain ⟨hk, hdef, h3⟩ := h2
        cases hg : s.scene.objects.get? k with
        | none =>
          rw [List.get?_eq_get hk] at hg
          exact absurd hg (by simp)
        | some o =>
          simp only [hg]
          constructor
          · intro i
            unfold objRangeOK
            dsimp only
            by_cases hik : i = k
            · subst hik
              rw [List.get?_set_eq_of_lt _ hk]
              cases hfs : s.firstShape with
              | none => exact rfl
              | some f =>
                rw [hfs] at h3
                obtain ⟨hfle, hptr⟩ := h3
                dsimp only
                refine ⟨by omega, ?_⟩
                intro j hjlt hjge
                exact hptr j (by omega) hjge
            · rw [List.get?_set_ne _ _ (fun he => hik he.symm)]
              have hi := h1 i
              unfold objRangeOK at hi
              exact hi
          · unfold activeObjInv
            dsimp only

/-- Helper: a `step` that returns `true` ran its handler. -/
theorem step_true_dispatch (d : Directive) (s s' : PState)
    (h : step d s = (s', true)) : dispatch d s = (s', true) := by
  unfold step at h
  dsimp only at h
  cases hc : (if s.inWorld then d.inWorld else d.inPreamble) with
  | false => rw [hc] at h; simp at h
  | true => rw [hc] at h; simpa using h

/-- Helper: every successful directive preserves the parse invariant. -/
theorem step_preserves_ParseInv (d : Directive) (s s' : PState)
    (h : step d s = (s', true)) (hinv : ParseInv s) : ParseInv s' := by
  have hd := step_true_dispatch d s s' h
  have hs' : s' = (dispatch d s).1 := (congrArg Prod.fst hd).symm
  have hb2 : (dispatch d s).2 = true := by rw [hd]
  subst hs'
  cases d with
  | WorldBegin => exact ParseInv_of_tracked (tracked_stepWorldBegin s) hinv
  | WorldEnd => exact ParseInv_of_tracked ⟨rfl, rfl, rfl, rfl⟩ hinv
  | AttributeBegin => exact ParseInv_of_tracked (tracked_stepAttributeBegin s) hinv
  | AttributeEnd => exact ParseInv_of_tracked (tracked_stepAttributeEnd s) hinv
  | TransformBegin => exact ParseInv_of_tracked (tracked_stepTransformBegin s) hinv
  | TransformEnd => exact ParseInv_of_tracked (tracked_stepTransformEnd s) hinv
  | ObjectBegin name => exact ParseInv_stepObjectBegin s name hb2 hinv
  | ObjectEnd => exact ParseInv_stepObjectEnd s hb2 hinv
  | ObjectInstance name => exact ParseInv_of_tracked (tracked_stepObjectInstance s name) hinv
  | Shape => exact ParseInv_stepShape s hinv

/-- Helper: the parse loop preserves the invariant on success. -/
theorem runParser_preserves_ParseInv (ds : List Directive) :
    ∀ s : PState, ParseInv s → (runParser ds s).2 = true → ParseInv (runParser ds s).1 := by
  induction ds with
  | nil => intro s h _; exact h
  | cons d ds ih =>
    intro s h hok
    unfold runParser at hok ⊢
    dsimp only at hok ⊢
    cases hr : (step d s).2 with
    | false =>
      rw [hr] at hok
      simp at hok
    | true =>
      rw [hr] at hok
      rw [if_pos rfl] at hok ⊢
      have hstep : step d s = ((step d s).1, true) := by rw [← hr]
      exact ih (step d s).1 (step_preserves_ParseInv d s (step d s).1 hstep h) hok

/-- C6: at the end of every successful parse, every stored object's
half-open shape range `[firstShape, firstShape + numShapes)` lies within
the shapes vector and every shape in that range has its `object` field
equal to that object's index (objects closed with no shapes keep the empty
default range). -/
theorem parse_object_shape_ranges (ds : List Directive)
    (h : (runParser ds initPState).2 = true) (i : ℕ) :
    objRangeOK (runParser ds initPState).1.scene i := by
  have hinit : ParseInv initPState := by
    constructor
    · intro i
      unfold objRangeOK
      cases i <;> trivial
    · trivial
  exact (runParser_preserves_ParseInv ds initPState hinit h).1 i

/-- Witness for `parse_object_shape_ranges`: a parse defining one object
holding two shapes. -/
theorem parse_object_shape_ranges_witness :
    (runParser [.WorldBegin, .ObjectBegin "obj", .Shape, .Shape, .ObjectEnd, .WorldEnd]
      initPState).2 = true ∧
    objRangeOK (runParser [.WorldBegin, .ObjectBegin "obj", .Shape, .Shape, .ObjectEnd, .WorldEnd]
      initPState).1.scene 0 :=
  ⟨by decide,
   parse_object_shape_ranges [.WorldBegin, .ObjectBegin "obj", .Shape, .Shape, .ObjectEnd, .WorldEnd]
     (by decide) 0⟩

end Minipbrt
